import Mathlib

/-!
Shallow embedding of the core pipeline of `src/water_scarcity/__init__.py`
(the `water-scarcity` repository): row classification (`_parse_sswi_row`),
the point-in-karst test (`_is_point_in_multigon`), risk aggregation
(`compute_risks`) and the auxiliary karst filter (`filter_karst_by_type`).

Modelling conventions:
* Python floats are modelled as exact rationals (`ℚ`); every SSWI value and
  threshold appearing here is exactly representable, so no rounding concern
  arises for the properties below.
* `float(...)` / `int(...)` string parsing is modelled by `parseFloat` /
  `parseInt`, which accept an optional sign and plain (decimal) digit
  notation; a string they reject corresponds to a `ValueError`, i.e. a fatal
  parse error.  (Python's exponent / `inf` forms are not needed by any input
  considered here.)
* An exception escaping `_parse_sswi_row` is the `ParseResult.fatal` value;
  `ParseResult.skip` is the silent `return` (row of wrong arity or comment
  row); `ParseResult.ok` carries the `(horizon, season, feature)` triple.
* `joblib.Parallel` materialises the full result list, or raises as soon as
  any worker raised; `compute_risks` therefore returns `none` exactly when
  some row is fatal, and otherwise folds the per-row results in input order,
  exactly like the `for point in points` loop of the source.
* Shapely polygons are opaque point predicates (`Polygon := ℚ × ℚ → Bool`):
  the source only ever calls `polygon.contains(point)`.
* `math.inf` / `-math.inf` sentinels are the `XRat.posInf` / `XRat.negInf`
  values of an extended-rational type whose `min`/`max` agree with Python's
  on (non-NaN) floats.
* The `csv.reader(..., delimiter=";")` row split is modelled by `splitRow`
  (plain split on `;`; none of the inputs considered contain quoting).
-/

/-- A shapely polygon, reduced to the only capability the source uses:
`polygon.contains(Point(lng, lat))`.  The query point is `(lng, lat)`. -/
abbrev Polygon := ℚ × ℚ → Bool

/-- `SEASONS = ["winter", "spring", "summer", "autumn"]` (module constant). -/
def SEASONS : List String := ["winter", "spring", "summer", "autumn"]

/-- The fixed `riskLevels` legend of the metadata built by `compute_risks`. -/
def RISK_LEVELS : List String :=
  ["",
   "Limitations de tous les pr\xe9l\xe8vements d\x27eau",
   "Interdiction d\x27utiliser l\x27eau pour des usages non prioritaires",
   "Menaces de p\xe9nuries en eau potable"]

/-- `point.startswith("#")` for the comment-row check. -/
def startsWithHash (s : String) : Bool :=
  match s.toList with
  | '#' :: _ => true
  | _ => false

/-- ASCII decimal digit test. -/
def isDigitChar (c : Char) : Bool := 48 ≤ c.toNat && c.toNat ≤ 57

/-- Value of a list of decimal digit characters. -/
def digitsVal (l : List Char) : ℕ := l.foldl (fun a c => 10 * a + (c.toNat - 48)) 0

/-- Unsigned decimal number: `digits`, `digits.digits`, `digits.` or
`.digits` (at least one digit overall), as accepted by Python `float`.
The value `ip.fp` is the exact rational `(ip * 10^k + fp) / 10^k` with
`k` the number of fractional digits (spelled with `mkRat` so that it
evaluates by kernel reduction). -/
def parseDec (l : List Char) : Option ℚ :=
  let ip := l.takeWhile isDigitChar
  match l.dropWhile isDigitChar with
  | [] => if ip.isEmpty then none else some ((digitsVal ip : ℚ))
  | '.' :: fp =>
    if fp.all isDigitChar && (!ip.isEmpty || !fp.isEmpty) then
      some (mkRat ((digitsVal ip * 10 ^ fp.length + digitsVal fp : ℕ) : ℤ)
        (10 ^ fp.length))
    else none
  | _ => none

/-- Model of Python `float(s)` (decimal notation, optional sign).
`none` corresponds to a `ValueError`. -/
def parseFloat (s : String) : Option ℚ :=
  match s.toList with
  | '-' :: rest => (parseDec rest).map (fun q => -q)
  | '+' :: rest => parseDec rest
  | l => parseDec l

/-- Model of Python `int(s)` (optional sign, decimal digits).
`none` corresponds to a `ValueError`. -/
def parseInt (s : String) : Option ℤ :=
  match s.toList with
  | '-' :: rest =>
    if !rest.isEmpty && rest.all isDigitChar then some (-(digitsVal rest : ℤ)) else none
  | '+' :: rest =>
    if !rest.isEmpty && rest.all isDigitChar then some ((digitsVal rest : ℤ)) else none
  | l =>
    if !l.isEmpty && l.all isDigitChar then some ((digitsVal l : ℤ)) else none

/-- Python list indexing `l[i]` (negative indices count from the end;
`none` is an `IndexError`).  Used for `SEASONS[int(season) - 1]`. -/
def pyGet (l : List String) (i : ℤ) : Option String :=
  if i < 0 then
    if 0 ≤ i + l.length then l[(i + l.length).toNat]? else none
  else l[i.toNat]?

/-- `_is_point_in_multigon(point, polygons)`: linear scan, true iff some
polygon contains the point. -/
def is_point_in_multigon (point : ℚ × ℚ) (polygons : List Polygon) : Bool :=
  polygons.any (fun polygon => polygon point)

/-- The classified point feature built by `_parse_sswi_row` (the GeoJSON
dict's payload; `Feature.toJson` below rebuilds the exact dict shape). -/
structure Feature where
  lng : ℚ
  lat : ℚ
  riskLevel : ℕ
  sswi : ℚ
  inKarst : Bool
deriving DecidableEq, Repr

/-- The threshold `-1.4` of the source, as an exact rational
(`mkRat (-14) 10 = -1.4`; the `mkRat` spelling keeps it kernel-reducible). -/
def THRESH_SEVERE : ℚ := mkRat (-14) 10

/-- The threshold `-0.7` of the source (`mkRat (-7) 10 = -0.7`). -/
def THRESH_MODERATE : ℚ := mkRat (-7) 10

/-- The `risk_level` computation of `_parse_sswi_row`:
`risk_level = 0`, then the `if sswi < -1.4 and in_karst / elif ... / elif
sswi < -0.7` chain. -/
def risk_level (sswi : ℚ) (in_karst : Bool) : ℕ :=
  if sswi < THRESH_SEVERE ∧ in_karst = true then 3
  else if sswi < THRESH_SEVERE ∧ in_karst = false then 2
  else if sswi < THRESH_MODERATE then 1
  else 0

/-- Outcome of `_parse_sswi_row` on one row: `skip` is the silent `return`
(wrong arity or comment row), `fatal` is an escaping exception
(`ValueError` / `IndexError`), `ok horizon season feature` is the returned
triple. -/
inductive ParseResult where
  | skip : ParseResult
  | fatal : ParseResult
  | ok : String → String → Feature → ParseResult
deriving DecidableEq, Repr

/-- Body of `_parse_sswi_row` after the 8-way unpack succeeded.  The source
parses `season`, `lat`, `lng`, `sswi` in sequence and any failure raises;
since all failures yield the same `fatal` outcome they are matched
together here. -/
def parse_fields (point lat lng horizon season sswi : String)
    (karst : List Polygon) : ParseResult :=
  if startsWithHash point then .skip
  else
    match (parseInt season).bind (fun n => pyGet SEASONS (n - 1)),
        parseFloat lat, parseFloat lng, parseFloat sswi with
    | some seasonName, some la, some ln, some q =>
      let in_karst := is_point_in_multigon (ln, la) karst
      .ok horizon seasonName (Feature.mk ln la (risk_level q in_karst) q in_karst)
    | _, _, _, _ => .fatal

/-- `_parse_sswi_row(row, karst_polygons)`: the tuple unpack
`point, lat, lng, _, horizon, season, sswi, _ = row` raises `ValueError`
(caught, `return None`) unless the row has exactly 8 fields. -/
def parse_sswi_row (row : List String) (karst : List Polygon) : ParseResult :=
  match row with
  | [point, lat, lng, _, horizon, season, sswi, _] =>
    parse_fields point lat lng horizon season sswi karst
  | _ => .skip

/-- Extended rationals: finite values plus the `math.inf` / `-math.inf`
sentinels used to initialise the running min/max. -/
inductive XRat where
  | negInf : XRat
  | fin : ℚ → XRat
  | posInf : XRat
deriving DecidableEq, Repr

/-- Order on extended rationals (agrees with the IEEE order on non-NaN
floats, which is what Python's `min`/`max` compare with). -/
def XRat.le : XRat → XRat → Prop
  | .negInf, _ => True
  | .fin _, .negInf => False
  | .fin p, .fin q => p ≤ q
  | .fin _, .posInf => True
  | .posInf, .posInf => True
  | .posInf, _ => False

instance : LE XRat := ⟨XRat.le⟩

instance XRat.decLe : ∀ a b : XRat, Decidable (XRat.le a b) := fun a b => by
  cases a <;> cases b <;> simp only [XRat.le] <;> infer_instance

/-- `min` on extended rationals (value of Python `min` on floats/infinities;
on two equal finite arguments either branch gives the same value). -/
def XRat.min : XRat → XRat → XRat
  | .negInf, _ => .negInf
  | _, .negInf => .negInf
  | .posInf, y => y
  | x, .posInf => x
  | .fin p, .fin q => .fin (if p ≤ q then p else q)

/-- `max` on extended rationals (value of Python `max` on floats/infinities). -/
def XRat.max : XRat → XRat → XRat
  | .posInf, _ => .posInf
  | _, .posInf => .posInf
  | .negInf, y => y
  | x, .negInf => x
  | .fin p, .fin q => .fin (if p ≤ q then q else p)

/-- The inner `defaultdict(list)` of `compute_risks`, season → features,
as an insertion-ordered association list (Python dicts preserve insertion
order). -/
abbrev SeasonGroups := List (String × List Feature)

/-- The outer `defaultdict`, horizon → season → features. -/
abbrev Groups := List (String × SeasonGroups)

/-- `features[h][s].append(p)` restricted to the inner dict: append to the
list at key `s`, creating the key at the end on first use. -/
def addToSeason (m : SeasonGroups) (s : String) (p : Feature) : SeasonGroups :=
  match m with
  | [] => [(s, [p])]
  | (s', ps) :: rest =>
    if s' = s then (s', ps ++ [p]) :: rest else (s', ps) :: addToSeason rest s p

/-- `features[h][s].append(p)` on the nested defaultdicts. -/
def addPoint (g : Groups) (h s : String) (p : Feature) : Groups :=
  match g with
  | [] => [(h, [(s, [p])])]
  | (h', m) :: rest =>
    if h' = h then (h', addToSeason m s p) :: rest else (h', m) :: addPoint rest h s p

/-- Lookup in the inner dict; missing key reads as the empty list. -/
def getSeason (m : SeasonGroups) (s : String) : List Feature :=
  match m with
  | [] => []
  | (s', ps) :: rest => if s' = s then ps else getSeason rest s

/-- The feature list grouped under `(h, s)`; missing keys read as empty. -/
def getGroup (g : Groups) (h s : String) : List Feature :=
  match g with
  | [] => []
  | (h', m) :: rest => if h' = h then getSeason m s else getGroup rest h s

/-- State of the aggregation loop of `compute_risks`. -/
structure AggState where
  features : Groups
  min_sswi : XRat
  max_sswi : XRat
deriving DecidableEq, Repr

def ParseResult.isFatal : ParseResult → Bool
  | .fatal => true
  | _ => false

/-- The successful triple, if any (`None` results give `none`). -/
def ParseResult.toTriple? : ParseResult → Option (String × String × Feature)
  | .ok h s f => some (h, s, f)
  | _ => none

/-- One iteration of the `for point in points` loop of `compute_risks`:
`None` results are `continue`d over, otherwise the feature is appended to
`features[h][s]` and the running min/max updated. -/
def step (st : AggState) (point : Option (String × String × Feature)) : AggState :=
  match point with
  | none => st
  | some (h, s, p) =>
    AggState.mk (addPoint st.features h s p)
      (XRat.min (.fin p.sswi) st.min_sswi)
      (XRat.max (.fin p.sswi) st.max_sswi)

/-- Result of `compute_risks`: the horizon → season grouping (each group is
wrapped verbatim, in order, into a `FeatureCollection` by the source's last
loop), and the metadata `{sswi: {min, max}, riskLevels}`. -/
structure ComputeResult where
  geojson : Groups
  min_sswi : XRat
  max_sswi : XRat
  riskLevels : List String
deriving DecidableEq, Repr

/-- `compute_risks(sswi_file, karst_file)` on already-split rows and
already-loaded polygons.  `joblib.Parallel` either raises (as soon as some
row raised — `none` here) or yields the full per-row result list, which the
source then folds in order. -/
def compute_risks (rows : List (List String)) (karst : List Polygon) :
    Option ComputeResult :=
  if rows.any (fun row => (parse_sswi_row row karst).isFatal) then none
  else
    let points := rows.map (fun row => (parse_sswi_row row karst).toTriple?)
    let st := points.foldl step (AggState.mk [] .posInf .negInf)
    some (ComputeResult.mk st.features st.min_sswi st.max_sswi RISK_LEVELS)

/-- The `(horizon, season, feature)` triples of the successfully classified
rows, in input order. -/
def classifiedTriples (rows : List (List String)) (karst : List Polygon) :
    List (String × String × Feature) :=
  rows.filterMap (fun row => (parse_sswi_row row karst).toTriple?)

/-- The SSWI values of the successfully classified rows, in input order. -/
def classifiedSswis (rows : List (List String)) (karst : List Polygon) : List ℚ :=
  (classifiedTriples rows karst).map (fun t => t.2.2.sswi)

/-- Split on `;`, right-to-left recursion (`"a;b" ↦ ["a", "b"]`). -/
def splitSemisChars : List Char → List (List Char)
  | [] => [[]]
  | c :: rest =>
    match splitSemisChars rest with
    | [] => [[c]]
    | w :: ws => if c = ';' then [] :: w :: ws else (c :: w) :: ws

/-- One line of the SSWI table as seen by `csv.reader(..., delimiter=";")`
(no quoting occurs in the inputs considered). -/
def splitRow (line : String) : List String :=
  (splitSemisChars line.toList).map (fun cs => String.mk cs)

/-! ### Basic facts about the embedded definitions -/

lemma THRESH_SEVERE_eq : THRESH_SEVERE = -1.4 := by
  norm_num [THRESH_SEVERE, Rat.mkRat_eq_div]

lemma THRESH_MODERATE_eq : THRESH_MODERATE = -0.7 := by
  norm_num [THRESH_MODERATE, Rat.mkRat_eq_div]

/-- The risk-level chain, case by case, phrased with the decimal thresholds
of the source. -/
lemma risk_level_spec (q : ℚ) (b : Bool) :
    (q < -1.4 → b = true → risk_level q b = 3) ∧
    (q < -1.4 → b = false → risk_level q b = 2) ∧
    (-1.4 ≤ q → q < -0.7 → risk_level q b = 1) ∧
    (-0.7 ≤ q → risk_level q b = 0) := by
  unfold risk_level
  rw [THRESH_SEVERE_eq, THRESH_MODERATE_eq]
  refine ⟨fun hq hb => ?_, fun hq hb => ?_, fun hq1 hq2 => ?_, fun hq => ?_⟩
  · rw [if_pos ⟨hq, hb⟩]
  · rw [if_neg (fun hh => by rw [hb] at hh; exact absurd hh.2 (by simp)),
      if_pos ⟨hq, hb⟩]
  · rw [if_neg (fun hh => absurd hh.1 (not_lt.mpr hq1)),
      if_neg (fun hh => absurd hh.1 (not_lt.mpr hq1)), if_pos hq2]
  · have h2 : ¬ q < -1.4 :=
      not_lt.mpr (le_trans (show (-1.4 : ℚ) ≤ -0.7 by norm_num) hq)
    rw [if_neg (fun hh => absurd hh.1 h2), if_neg (fun hh => absurd hh.1 h2),
      if_neg (not_lt.mpr hq)]

/-- Elimination form for a successful classification: the row has exactly 8
fields, is not a comment, all fields parsed, and the feature is built from
the parsed values. -/
lemma parse_ok_shape {row : List String} {karst : List Polygon} {h s : String}
    {f : Feature} (hp : parse_sswi_row row karst = .ok h s f) :
    ∃ point lat lng f4 season sswi f8 la ln q,
      row = [point, lat, lng, f4, h, season, sswi, f8] ∧
      startsWithHash point = false ∧
      parseFloat lat = some la ∧ parseFloat lng = some ln ∧
      parseFloat sswi = some q ∧
      (parseInt season).bind (fun n => pyGet SEASONS (n - 1)) = some s ∧
      f = Feature.mk ln la (risk_level q (is_point_in_multigon (ln, la) karst)) q
            (is_point_in_multigon (ln, la) karst) := by
  rcases row with _ | ⟨p, _ | ⟨a2, _ | ⟨a3, _ | ⟨a4, _ | ⟨a5, _ | ⟨a6, _ | ⟨a7,
      _ | ⟨a8, rest⟩⟩⟩⟩⟩⟩⟩⟩ <;>
    simp only [parse_sswi_row] at hp <;> try exact absurd hp (by simp)
  · rcases rest with _ | ⟨a9, rest⟩
    · unfold parse_fields at hp
      by_cases hc : startsWithHash p
      · simp [hc] at hp
      · simp only [hc, if_false, Bool.false_eq_true] at hp
        split at hp
        · next sn la ln q hsea hla hln hq =>
          simp only [ParseResult.ok.injEq] at hp
          obtain ⟨hhor, hsn, hf⟩ := hp
          subst hhor
          exact ⟨p, a2, a3, a4, a6, a7, a8, la, ln, q, rfl, by simpa using hc,
            hla, hln, hq, by rw [hsea, hsn], hf.symm⟩
        · simp at hp
    · simp only [parse_sswi_row] at hp
      exact absurd hp (by simp)

/-! ### Claims C1, C2, C7, C10 -/

/-- C1: for every successfully classified row, the feature's `inKarst` flag
is the point-in-karst test on its coordinates, and its risk level follows
the threshold chain: SSWI < −1.4 inside karst → 3, SSWI < −1.4 outside
karst → 2, −1.4 ≤ SSWI < −0.7 → 1 (comparisons strict), SSWI ≥ −0.7 → 0
regardless of karst membership. -/
theorem risk_thresholds_of_classified (row : List String) (karst : List Polygon)
    (h s : String) (f : Feature)
    (hp : parse_sswi_row row karst = .ok h s f) :
    f.inKarst = is_point_in_multigon (f.lng, f.lat) karst ∧
    (f.sswi < -1.4 → f.inKarst = true → f.riskLevel = 3) ∧
    (f.sswi < -1.4 → f.inKarst = false → f.riskLevel = 2) ∧
    (-1.4 ≤ f.sswi → f.sswi < -0.7 → f.riskLevel = 1) ∧
    (-0.7 ≤ f.sswi → f.riskLevel = 0) := by
  obtain ⟨p, la', ln', f4, sea, ssw, f8, la, ln, q, hrow, hc, hla, hln, hq, hsea, hf⟩ :=
    parse_ok_shape hp
  subst hf
  exact ⟨rfl, (risk_level_spec q _).1, (risk_level_spec q _).2.1,
    (risk_level_spec q _).2.2.1, (risk_level_spec q _).2.2.2⟩

/-- Witness for C1 at the spec's example row, with an empty karst set. -/
theorem risk_thresholds_of_classified_witness :
    parse_sswi_row ["p1", "46.0", "2.0", "x", "2", "3", "-2.0", "y"] [] =
      ParseResult.ok "2" "summer" (Feature.mk 2 46 2 (-2) false) ∧
    (false = is_point_in_multigon (2, 46) [] ∧
      ((-2 : ℚ) < -1.4 → false = true → (2 : ℕ) = 3) ∧
      ((-2 : ℚ) < -1.4 → false = false → (2 : ℕ) = 2) ∧
      ((-1.4 : ℚ) ≤ -2 → (-2 : ℚ) < -0.7 → (2 : ℕ) = 1) ∧
      ((-0.7 : ℚ) ≤ -2 → (2 : ℕ) = 0)) :=
  ⟨by decide,
    risk_thresholds_of_classified ["p1", "46.0", "2.0", "x", "2", "3", "-2.0", "y"]
      [] "2" "summer" (Feature.mk 2 46 2 (-2) false) (by decide)⟩

/-- C2 counterexample: the 8-field, non-comment row
`p1;46.0;2.0;x;1;0;-2.0;y` has season ordinal `0`, which is outside 1–4,
yet classification does not fail: `SEASONS[0 - 1]` is Python negative
indexing and yields `"autumn"`, so a feature is produced. -/
theorem season_ordinal_zero_yields_feature :
    parse_sswi_row ["p1", "46.0", "2.0", "x", "1", "0", "-2.0", "y"] [] =
      ParseResult.ok "1" "autumn" (Feature.mk 2 46 2 (-2) false) ∧
    parse_sswi_row ["p1", "46.0", "2.0", "x", "1", "0", "-2.0", "y"] [] ≠
      ParseResult.fatal := by
  constructor <;> decide

/-- C2 amended: for an 8-field non-comment row whose season field parses as
an integer `n`, classification fails with a fatal error when `n - 1` is
outside Python's index range for the 4-element season list, i.e. when
`n < -3` or `4 < n`; ordinals 0, −1, −2, −3 instead select a season by
negative indexing. -/
theorem season_ordinal_out_of_pyrange_fatal
    (p lat lng f4 hor sea ssw f8 : String) (karst : List Polygon) (n : ℤ)
    (hc : startsWithHash p = false) (hn : parseInt sea = some n)
    (hrange : n < -3 ∨ 4 < n) :
    parse_sswi_row [p, lat, lng, f4, hor, sea, ssw, f8] karst = .fatal := by
  have hpy : pyGet SEASONS (n - 1) = none := by
    unfold pyGet
    rcases hrange with hr | hr
    · rw [if_pos (by omega : n - 1 < 0),
        if_neg (by simp only [SEASONS, List.length_cons, List.length_nil]; omega)]
    · rw [if_neg (by omega : ¬ n - 1 < 0)]
      apply List.getElem?_eq_none
      simp only [SEASONS, List.length_cons, List.length_nil]
      omega
  simp only [parse_sswi_row]
  unfold parse_fields
  rw [if_neg (by simp [hc])]
  split
  · next sn la ln q heq hla hln hq =>
    rw [hn] at heq
    simp [hpy] at heq
  · rfl

/-- Witness for the amended C2: season ordinal 5 is fatal. -/
theorem season_ordinal_out_of_pyrange_fatal_witness :
    startsWithHash "p" = false ∧ parseInt "5" = some 5 ∧
    parse_sswi_row ["p", "1.0", "2.0", "x", "1", "5", "-2.0", "y"] [] =
      ParseResult.fatal :=
  ⟨by decide, by decide,
    season_ordinal_out_of_pyrange_fatal "p" "1.0" "2.0" "x" "1" "5" "-2.0" "y" [] 5
      (by decide) (by decide) (Or.inr (by decide))⟩

/-- C7: the spec's example row against an empty karst set: horizon `"2"`,
season `"summer"`, risk level 2, SSWI −2.0, not in karst; and the
point-in-karst test on an empty polygon set is false for every point. -/
theorem example_row_empty_karst :
    parse_sswi_row (splitRow "p1;46.0;2.0;x;2;3;-2.0;y") [] =
      ParseResult.ok "2" "summer" (Feature.mk 2 46 2 (-2) false) ∧
    ∀ pt : ℚ × ℚ, is_point_in_multigon pt [] = false :=
  ⟨by decide, fun pt => rfl⟩

/-- C10: the comment check runs before any field parsing, so an 8-field row
whose point identifier starts with `#` is skipped whatever the other
fields contain — no fatal parse error can arise from it. -/
theorem comment_checked_before_parsing (p f2 f3 f4 f5 f6 f7 f8 : String)
    (karst : List Polygon) (hc : startsWithHash p = true) :
    parse_sswi_row [p, f2, f3, f4, f5, f6, f7, f8] karst = .skip := by
  simp [parse_sswi_row, parse_fields, hc]

/-- Witness for C10: a comment row whose season, latitude, longitude and
SSWI fields would all fail to parse is still a silent skip. -/
theorem comment_checked_before_parsing_witness :
    startsWithHash "#1" = true ∧
    parse_sswi_row ["#1", "bad", "bad", "x", "99", "zz", "qq", "y"] [] =
      ParseResult.skip :=
  ⟨by decide,
    comment_checked_before_parsing "#1" "bad" "bad" "x" "99" "zz" "qq" "y" []
      (by decide)⟩

/-! ### Aggregation-layer helper lemmas -/

lemma ParseResult.isFatal_iff {pr : ParseResult} : pr.isFatal = true ↔ pr = .fatal := by
  cases pr <;> simp [ParseResult.isFatal]

/-- A row that does not have exactly 8 fields is silently skipped. -/
lemma parse_skip_of_arity {row : List String} {karst : List Polygon}
    (h8 : row.length ≠ 8) : parse_sswi_row row karst = .skip := by
  rcases row with _ | ⟨a1, _ | ⟨a2, _ | ⟨a3, _ | ⟨a4, _ | ⟨a5, _ | ⟨a6, _ | ⟨a7,
      _ | ⟨a8, _ | ⟨a9, rest⟩⟩⟩⟩⟩⟩⟩⟩⟩ <;> first
    | rfl
    | exact absurd rfl h8

/-- Inserting a skipped row anywhere leaves the whole aggregation
unchanged. -/
lemma compute_risks_insert_skip {row : List String} {karst : List Polygon}
    (hskip : parse_sswi_row row karst = .skip) (pre post : List (List String)) :
    compute_risks (pre ++ row :: post) karst = compute_risks (pre ++ post) karst := by
  have hfatal : (parse_sswi_row row karst).isFatal = false := by rw [hskip]; rfl
  have htrip : (parse_sswi_row row karst).toTriple? = none := by rw [hskip]; rfl
  unfold compute_risks
  simp only [List.any_append, List.any_cons, hfatal, Bool.false_or, List.map_append,
    List.map_cons, List.foldl_append, List.foldl_cons, htrip]
  rfl

/-- One fatal row aborts the whole aggregation. -/
lemma compute_risks_none_of_fatal {rows : List (List String)} {karst : List Polygon}
    {row : List String} (hmem : row ∈ rows)
    (hfat : parse_sswi_row row karst = .fatal) :
    compute_risks rows karst = none := by
  have hany : rows.any (fun r => (parse_sswi_row r karst).isFatal) = true :=
    List.any_eq_true.mpr ⟨row, hmem, by rw [hfat]; rfl⟩
  unfold compute_risks
  rw [if_pos hany]

/-! ### Claims C3 and C4 -/

/-- C3: an 8-field non-comment row whose latitude, longitude or SSWI field
does not parse as a number is a fatal error, and any such row in the input
aborts the whole aggregation — `compute_risks` yields no partial result. -/
theorem malformed_number_aborts (rows : List (List String)) (karst : List Polygon)
    (p lat lng f4 hor sea ssw f8 : String)
    (hmem : [p, lat, lng, f4, hor, sea, ssw, f8] ∈ rows)
    (hc : startsWithHash p = false)
    (hbad : parseFloat lat = none ∨ parseFloat lng = none ∨ parseFloat ssw = none) :
    parse_sswi_row [p, lat, lng, f4, hor, sea, ssw, f8] karst = .fatal ∧
    compute_risks rows karst = none := by
  have hfat : parse_sswi_row [p, lat, lng, f4, hor, sea, ssw, f8] karst = .fatal := by
    simp only [parse_sswi_row]
    unfold parse_fields
    rw [if_neg (by simp [hc])]
    split
    · next sn la ln q heq hla hln hq =>
      rcases hbad with hb | hb | hb
      · rw [hb] at hla; exact absurd hla (by simp)
      · rw [hb] at hln; exact absurd hln (by simp)
      · rw [hb] at hq; exact absurd hq (by simp)
    · rfl
  exact ⟨hfat, compute_risks_none_of_fatal hmem hfat⟩

/-- Witness for C3: the spec's malformed row `p3;bad;2.0;x;1;1;-2.0;y`
aborts the aggregation. -/
theorem malformed_number_aborts_witness :
    splitRow "p3;bad;2.0;x;1;1;-2.0;y" =
      ["p3", "bad", "2.0", "x", "1", "1", "-2.0", "y"] ∧
    (parse_sswi_row ["p3", "bad", "2.0", "x", "1", "1", "-2.0", "y"] [] =
        ParseResult.fatal ∧
      compute_risks [["p3", "bad", "2.0", "x", "1", "1", "-2.0", "y"]] [] = none) :=
  ⟨by decide,
    malformed_number_aborts [["p3", "bad", "2.0", "x", "1", "1", "-2.0", "y"]] []
      "p3" "bad" "2.0" "x" "1" "1" "-2.0" "y" (by decide) (by decide)
      (Or.inl (by decide))⟩

/-- C4: a row with a field count other than 8, or an 8-field row whose
point identifier starts with `#`, is classified as a skip, and inserting it
anywhere in the input changes nothing: same grouping and same min/max. -/
theorem skip_rows_contribute_nothing (row : List String) (karst : List Polygon)
    (hrow : row.length ≠ 8 ∨ startsWithHash (row.headD "") = true) :
    parse_sswi_row row karst = .skip ∧
    ∀ pre post : List (List String),
      compute_risks (pre ++ row :: post) karst = compute_risks (pre ++ post) karst := by
  have hskip : parse_sswi_row row karst = .skip := by
    rcases hrow with h8 | hcomment
    · exact parse_skip_of_arity h8
    · rcases row with _ | ⟨a1, _ | ⟨a2, _ | ⟨a3, _ | ⟨a4, _ | ⟨a5, _ | ⟨a6, _ | ⟨a7,
          _ | ⟨a8, _ | ⟨a9, rest⟩⟩⟩⟩⟩⟩⟩⟩⟩ <;>
        first
        | rfl
        | exact absurd hcomment (by decide)
        | exact comment_checked_before_parsing a1 a2 a3 a4 a5 a6 a7 a8 karst hcomment
  exact ⟨hskip, fun pre post => compute_risks_insert_skip hskip pre post⟩

/-- Witness for C4: a 2-field comment fragment is skipped and inserting it
between two valid rows leaves the aggregation unchanged. -/
theorem skip_rows_contribute_nothing_witness :
    (["#c", "1"] : List String).length ≠ 8 ∧
    (parse_sswi_row ["#c", "1"] [] = ParseResult.skip ∧
      ∀ pre post : List (List String),
        compute_risks (pre ++ ["#c", "1"] :: post) [] =
          compute_risks (pre ++ post) []) :=
  ⟨by decide, skip_rows_contribute_nothing ["#c", "1"] [] (Or.inl (by decide))⟩

/-! ### Extended-rational order facts -/

lemma ite_min (p q : ℚ) : (if p ≤ q then p else q) = Min.min p q := (min_def p q).symm

lemma ite_max (p q : ℚ) : (if p ≤ q then q else p) = Max.max p q := (max_def p q).symm

lemma XRat.le_refl (a : XRat) : a.le a := by cases a <;> simp [XRat.le]

lemma XRat.le_trans {a b c : XRat} (h1 : a.le b) (h2 : b.le c) : a.le c := by
  cases a <;> cases b <;> cases c <;> simp_all [XRat.le]
  exact h1.trans h2

lemma XRat.min_le_left (a b : XRat) : (XRat.min a b).le a := by
  cases a <;> cases b <;> simp [XRat.min, XRat.le, ite_min]

lemma XRat.min_le_right (a b : XRat) : (XRat.min a b).le b := by
  cases a <;> cases b <;> simp [XRat.min, XRat.le, ite_min]

lemma XRat.min_eq_or (a b : XRat) : XRat.min a b = a ∨ XRat.min a b = b := by
  cases a with
  | negInf => cases b <;> exact Or.inl rfl
  | posInf => cases b <;> exact Or.inr rfl
  | fin p =>
    cases b with
    | negInf => exact Or.inr rfl
    | posInf => exact Or.inl rfl
    | fin q =>
      by_cases h : p ≤ q
      · exact Or.inl (by simp [XRat.min, h])
      · exact Or.inr (by simp [XRat.min, h])

lemma XRat.le_max_left (a b : XRat) : a.le (XRat.max a b) := by
  cases a <;> cases b <;> simp [XRat.max, XRat.le, ite_max]

lemma XRat.le_max_right (a b : XRat) : b.le (XRat.max a b) := by
  cases a <;> cases b <;> simp [XRat.max, XRat.le, ite_max]

lemma XRat.max_eq_or (a b : XRat) : XRat.max a b = a ∨ XRat.max a b = b := by
  cases a with
  | posInf => cases b <;> exact Or.inl rfl
  | negInf => cases b <;> exact Or.inr rfl
  | fin p =>
    cases b with
    | posInf => exact Or.inr rfl
    | negInf => exact Or.inl rfl
    | fin q =>
      by_cases h : p ≤ q
      · exact Or.inr (by simp [XRat.max, h])
      · exact Or.inl (by simp [XRat.max, h])

lemma XRat.not_posInf_le_fin (q : ℚ) : ¬ XRat.le .posInf (.fin q) := by
  simp [XRat.le]

lemma XRat.not_fin_le_negInf (q : ℚ) : ¬ XRat.le (.fin q) .negInf := by
  simp [XRat.le]

/-! ### Characterising the aggregation fold -/

/-- One running-minimum update of the loop. -/
def minStep (a : XRat) (q : ℚ) : XRat := XRat.min (.fin q) a

/-- One running-maximum update of the loop. -/
def maxStep (a : XRat) (q : ℚ) : XRat := XRat.max (.fin q) a

/-- The SSWI values among a list of per-row results. -/
def sswisOf (pts : List (Option (String × String × Feature))) : List ℚ :=
  pts.filterMap (fun o => o.map (fun t => t.2.2.sswi))

/-- The successful triples among a list of per-row results. -/
def triplesOf (pts : List (Option (String × String × Feature))) :
    List (String × String × Feature) :=
  pts.filterMap id

lemma foldl_step_min (pts : List (Option (String × String × Feature)))
    (st : AggState) :
    (pts.foldl step st).min_sswi = (sswisOf pts).foldl minStep st.min_sswi := by
  induction pts generalizing st with
  | nil => rfl
  | cons o t ih =>
    cases o with
    | none => simp only [List.foldl_cons, step, sswisOf, List.filterMap_cons]; exact ih st
    | some tr =>
      obtain ⟨h, s, p⟩ := tr
      simp only [List.foldl_cons, step, sswisOf, List.filterMap_cons, Option.map_some]
      rw [ih]
      rfl

lemma foldl_step_max (pts : List (Option (String × String × Feature)))
    (st : AggState) :
    (pts.foldl step st).max_sswi = (sswisOf pts).foldl maxStep st.max_sswi := by
  induction pts generalizing st with
  | nil => rfl
  | cons o t ih =>
    cases o with
    | none => simp only [List.foldl_cons, step, sswisOf, List.filterMap_cons]; exact ih st
    | some tr =>
      obtain ⟨h, s, p⟩ := tr
      simp only [List.foldl_cons, step, sswisOf, List.filterMap_cons, Option.map_some]
      rw [ih]
      rfl

lemma foldl_step_features (pts : List (Option (String × String × Feature)))
    (st : AggState) :
    (pts.foldl step st).features =
      (triplesOf pts).foldl (fun g t => addPoint g t.1 t.2.1 t.2.2) st.features := by
  induction pts generalizing st with
  | nil => rfl
  | cons o t ih =>
    cases o with
    | none => simp only [List.foldl_cons, step, triplesOf, List.filterMap_cons]; exact ih st
    | some tr =>
      obtain ⟨h, s, p⟩ := tr
      simp only [List.foldl_cons, step, triplesOf, List.filterMap_cons, id_eq]
      rw [ih]
      rfl

lemma sswisOf_map (rows : List (List String)) (karst : List Polygon) :
    sswisOf (rows.map (fun row => (parse_sswi_row row karst).toTriple?)) =
      classifiedSswis rows karst := by
  induction rows with
  | nil => rfl
  | cons r t ih =>
    simp only [sswisOf, classifiedSswis, classifiedTriples, List.map_cons,
      List.filterMap_cons] at *
    cases (parse_sswi_row r karst).toTriple? with
    | none => exact ih
    | some tr => simp [ih]

lemma triplesOf_map (rows : List (List String)) (karst : List Polygon) :
    triplesOf (rows.map (fun row => (parse_sswi_row row karst).toTriple?)) =
      classifiedTriples rows karst := by
  induction rows with
  | nil => rfl
  | cons r t ih =>
    simp only [triplesOf, classifiedTriples, List.map_cons, List.filterMap_cons] at *
    cases (parse_sswi_row r karst).toTriple? with
    | none => exact ih
    | some tr => simp [ih]

lemma foldl_minStep_le_init (l : List ℚ) (a : XRat) : (l.foldl minStep a).le a := by
  induction l generalizing a with
  | nil => exact XRat.le_refl a
  | cons q t ih =>
    exact XRat.le_trans (ih (minStep a q)) (XRat.min_le_right _ _)

lemma foldl_minStep_le_mem {l : List ℚ} {q : ℚ} (hq : q ∈ l) (a : XRat) :
    (l.foldl minStep a).le (.fin q) := by
  induction l generalizing a with
  | nil => cases hq
  | cons r t ih =>
    rcases List.mem_cons.mp hq with h | h
    · subst h
      exact XRat.le_trans (foldl_minStep_le_init t _) (XRat.min_le_left _ _)
    · exact ih h _

lemma foldl_minStep_eq_init_or_mem (l : List ℚ) (a : XRat) :
    l.foldl minStep a = a ∨ l.foldl minStep a ∈ l.map XRat.fin := by
  induction l generalizing a with
  | nil => exact Or.inl rfl
  | cons q t ih =>
    rw [List.foldl_cons]
    rcases ih (minStep a q) with h | h
    · rw [h]
      unfold minStep
      rcases XRat.min_eq_or (.fin q) a with h2 | h2 <;> rw [h2]
      · exact Or.inr (by simp)
      · exact Or.inl rfl
    · exact Or.inr (List.mem_cons_of_mem _ h)

lemma init_le_foldl_maxStep (l : List ℚ) (a : XRat) : a.le (l.foldl maxStep a) := by
  induction l generalizing a with
  | nil => exact XRat.le_refl a
  | cons q t ih =>
    exact XRat.le_trans (XRat.le_max_right _ _) (ih (maxStep a q))

lemma mem_le_foldl_maxStep {l : List ℚ} {q : ℚ} (hq : q ∈ l) (a : XRat) :
    (XRat.fin q).le (l.foldl maxStep a) := by
  induction l generalizing a with
  | nil => cases hq
  | cons r t ih =>
    rcases List.mem_cons.mp hq with h | h
    · subst h
      exact XRat.le_trans (XRat.le_max_left _ _) (init_le_foldl_maxStep t _)
    · exact ih h _

lemma foldl_maxStep_eq_init_or_mem (l : List ℚ) (a : XRat) :
    l.foldl maxStep a = a ∨ l.foldl maxStep a ∈ l.map XRat.fin := by
  induction l generalizing a with
  | nil => exact Or.inl rfl
  | cons q t ih =>
    rw [List.foldl_cons]
    rcases ih (maxStep a q) with h | h
    · rw [h]
      unfold maxStep
      rcases XRat.max_eq_or (.fin q) a with h2 | h2 <;> rw [h2]
      · exact Or.inr (by simp)
      · exact Or.inl rfl
    · exact Or.inr (List.mem_cons_of_mem _ h)

/-- Extracts the aggregation state from a successful `compute_risks` run. -/
lemma compute_risks_some_elim {rows : List (List String)} {karst : List Polygon}
    {res : ComputeResult} (hp : compute_risks rows karst = some res) :
    res.min_sswi = (classifiedSswis rows karst).foldl minStep .posInf ∧
    res.max_sswi = (classifiedSswis rows karst).foldl maxStep .negInf ∧
    res.geojson = (classifiedTriples rows karst).foldl
      (fun g t => addPoint g t.1 t.2.1 t.2.2) [] := by
  unfold compute_risks at hp
  by_cases hany : rows.any (fun row => (parse_sswi_row row karst).isFatal) = true
  · rw [if_pos hany] at hp; cases hp
  · rw [if_neg hany] at hp
    obtain rfl := (Option.some.inj hp).symm
    refine ⟨?_, ?_, ?_⟩
    · rw [foldl_step_min, sswisOf_map]
    · rw [foldl_step_max, sswisOf_map]
    · rw [foldl_step_features, triplesOf_map]

/-! ### Claim C5 -/

/-- C5: after a successful aggregation, the metadata minimum (resp.
maximum) is a lower (resp. upper) bound of the SSWI values of all
successfully classified features and is attained by one of them; when no
feature was classified they are the `+inf` / `-inf` sentinels. -/
theorem min_max_metadata (rows : List (List String)) (karst : List Polygon)
    (res : ComputeResult) (hp : compute_risks rows karst = some res) :
    (classifiedSswis rows karst = [] →
      res.min_sswi = .posInf ∧ res.max_sswi = .negInf) ∧
    (∀ q ∈ classifiedSswis rows karst,
      res.min_sswi.le (.fin q) ∧ (XRat.fin q).le res.max_sswi) ∧
    (classifiedSswis rows karst ≠ [] →
      res.min_sswi ∈ (classifiedSswis rows karst).map XRat.fin ∧
      res.max_sswi ∈ (classifiedSswis rows karst).map XRat.fin) := by
  obtain ⟨hmin, hmax, -⟩ := compute_risks_some_elim hp
  refine ⟨?_, ?_, ?_⟩
  · intro hnil
    rw [hmin, hmax, hnil]
    exact ⟨rfl, rfl⟩
  · intro q hq
    rw [hmin, hmax]
    exact ⟨foldl_minStep_le_mem hq _, mem_le_foldl_maxStep hq _⟩
  · intro hne
    obtain ⟨q, hq⟩ := List.exists_mem_of_ne_nil _ hne
    constructor
    · rcases foldl_minStep_eq_init_or_mem (classifiedSswis rows karst) .posInf with h | h
      · exfalso
        have hb := foldl_minStep_le_mem hq (XRat.posInf)
        rw [h] at hb
        exact XRat.not_posInf_le_fin q hb
      · rw [hmin]; exact h
    · rcases foldl_maxStep_eq_init_or_mem (classifiedSswis rows karst) .negInf with h | h
      · exfalso
        have hb := mem_le_foldl_maxStep hq (XRat.negInf)
        rw [h] at hb
        exact XRat.not_fin_le_negInf q hb
      · rw [hmax]; exact h

/-- The two valid example rows of the spec (SSWI −2.0 and −0.5). -/
def exampleRows : List (List String) :=
  [["p1", "46.0", "2.0", "x", "2", "3", "-2.0", "y"],
   ["p2", "46.0", "2.0", "x", "2", "3", "-0.5", "y"]]

/-- The aggregation result on `exampleRows` with no karst polygons:
metadata range is exactly {min: −2.0, max: −0.5}. -/
def exampleResult : ComputeResult :=
  ComputeResult.mk
    [("2", [("summer",
      [Feature.mk 2 46 2 (-2) false,
       Feature.mk 2 46 0 (mkRat (-1) 2) false])])]
    (.fin (-2)) (.fin (mkRat (-1) 2)) RISK_LEVELS

/-- Witness for C5 on the spec's metadata example. -/
theorem min_max_metadata_witness :
    compute_risks exampleRows [] = some exampleResult ∧
    ((classifiedSswis exampleRows [] = [] →
        exampleResult.min_sswi = .posInf ∧ exampleResult.max_sswi = .negInf) ∧
      (∀ q ∈ classifiedSswis exampleRows [],
        exampleResult.min_sswi.le (.fin q) ∧
        (XRat.fin q).le exampleResult.max_sswi) ∧
      (classifiedSswis exampleRows [] ≠ [] →
        exampleResult.min_sswi ∈ (classifiedSswis exampleRows []).map XRat.fin ∧
        exampleResult.max_sswi ∈ (classifiedSswis exampleRows []).map XRat.fin)) :=
  ⟨by decide, min_max_metadata exampleRows [] exampleResult (by decide)⟩

/-! ### Claim C6: order-independence of the aggregation -/

lemma XRat.min_lcomm (x y z : XRat) :
    XRat.min x (XRat.min y z) = XRat.min y (XRat.min x z) := by
  cases x <;> cases y <;> cases z <;>
    simp only [XRat.min, ite_min] <;>
    first
      | rfl
      | exact congrArg XRat.fin (min_comm _ _)
      | exact congrArg XRat.fin (min_left_comm _ _ _)

lemma XRat.max_lcomm (x y z : XRat) :
    XRat.max x (XRat.max y z) = XRat.max y (XRat.max x z) := by
  cases x <;> cases y <;> cases z <;>
    simp only [XRat.max, ite_max] <;>
    first
      | rfl
      | exact congrArg XRat.fin (max_comm _ _)
      | exact congrArg XRat.fin (max_left_comm _ _ _)

lemma minStep_swap (a : XRat) (q1 q2 : ℚ) :
    minStep (minStep a q1) q2 = minStep (minStep a q2) q1 := by
  unfold minStep
  exact XRat.min_lcomm _ _ _

lemma maxStep_swap (a : XRat) (q1 q2 : ℚ) :
    maxStep (maxStep a q1) q2 = maxStep (maxStep a q2) q1 := by
  unfold maxStep
  exact XRat.max_lcomm _ _ _

lemma foldl_minStep_perm {l l' : List ℚ} (hp : l.Perm l') :
    ∀ a : XRat, l.foldl minStep a = l'.foldl minStep a := by
  induction hp with
  | nil => intro a; rfl
  | cons x _ ih => intro a; rw [List.foldl_cons, List.foldl_cons, ih]
  | swap x y t =>
    intro a
    rw [List.foldl_cons, List.foldl_cons, List.foldl_cons, List.foldl_cons,
      minStep_swap]
  | trans _ _ ih1 ih2 => intro a; rw [ih1, ih2]

lemma foldl_maxStep_perm {l l' : List ℚ} (hp : l.Perm l') :
    ∀ a : XRat, l.foldl maxStep a = l'.foldl maxStep a := by
  induction hp with
  | nil => intro a; rfl
  | cons x _ ih => intro a; rw [List.foldl_cons, List.foldl_cons, ih]
  | swap x y t =>
    intro a
    rw [List.foldl_cons, List.foldl_cons, List.foldl_cons, List.foldl_cons,
      maxStep_swap]
  | trans _ _ ih1 ih2 => intro a; rw [ih1, ih2]

lemma getSeason_addToSeason (m : SeasonGroups) (s' : String) (p : Feature)
    (s : String) :
    getSeason (addToSeason m s' p) s =
      getSeason m s ++ (if s' = s then [p] else []) := by
  induction m with
  | nil => by_cases h : s' = s <;> simp [addToSeason, getSeason, h]
  | cons hd t ih =>
    obtain ⟨s'', ps⟩ := hd
    by_cases h1 : s'' = s'
    · subst h1
      by_cases h2 : s'' = s
      · subst h2
        simp [addToSeason, getSeason]
      · simp [addToSeason, getSeason, h2]
    · by_cases h2 : s'' = s
      · subst h2
        have h3 : ¬ s' = s'' := fun hh => h1 hh.symm
        simp [addToSeason, getSeason, h1, h3, ih]
      · simp [addToSeason, getSeason, h1, h2, ih]

lemma getGroup_addPoint (g : Groups) (h0 s0 : String) (p : Feature)
    (h s : String) :
    getGroup (addPoint g h0 s0 p) h s =
      getGroup g h s ++ (if h0 = h ∧ s0 = s then [p] else []) := by
  induction g with
  | nil =>
    by_cases hh : h0 = h
    · subst hh
      by_cases hs : s0 = s <;> simp [addPoint, getGroup, getSeason, hs]
    · simp [addPoint, getGroup, hh]
  | cons hd t ih =>
    obtain ⟨h'', m⟩ := hd
    by_cases h1 : h'' = h0
    · subst h1
      by_cases h2 : h'' = h
      · subst h2
        simp [addPoint, getGroup, getSeason_addToSeason]
      · simp [addPoint, getGroup, h2]
    · by_cases h2 : h'' = h
      · subst h2
        have h3 : ¬ h0 = h'' := fun hh => h1 hh.symm
        simp [addPoint, getGroup, h1, h3]
      · simp [addPoint, getGroup, h1, h2, ih]

lemma getGroup_foldl (trs : List (String × String × Feature)) (g : Groups)
    (h s : String) :
    getGroup (trs.foldl (fun acc t => addPoint acc t.1 t.2.1 t.2.2) g) h s =
      getGroup g h s ++
        trs.filterMap
          (fun t => if t.1 = h ∧ t.2.1 = s then some t.2.2 else none) := by
  induction trs generalizing g with
  | nil => simp
  | cons t ts ih =>
    rw [List.foldl_cons, ih, getGroup_addPoint, List.filterMap_cons]
    by_cases ht : t.1 = h ∧ t.2.1 = s
    · rw [if_pos ht, if_pos ht]
      simp [List.append_assoc]
    · rw [if_neg ht, if_neg ht]
      simp

/-- C6: aggregating any permutation of the input rows aborts in exactly the
same cases, and on success produces identical min/max metadata and, for
every horizon/season key, the same feature collection up to order
(multiset equality, hence equality as sets). -/
theorem aggregation_perm_invariant (rows rows' : List (List String))
    (karst : List Polygon) (hperm : rows.Perm rows') :
    (compute_risks rows karst = none ↔ compute_risks rows' karst = none) ∧
    (∀ res res', compute_risks rows karst = some res →
      compute_risks rows' karst = some res' →
      res.min_sswi = res'.min_sswi ∧ res.max_sswi = res'.max_sswi ∧
      ∀ h s, (getGroup res.geojson h s : Multiset Feature) =
        (getGroup res'.geojson h s : Multiset Feature)) := by
  have htr : (classifiedTriples rows karst).Perm (classifiedTriples rows' karst) :=
    hperm.filterMap _
  have hsw : (classifiedSswis rows karst).Perm (classifiedSswis rows' karst) :=
    htr.map _
  constructor
  · have hany : rows.any (fun r => (parse_sswi_row r karst).isFatal) =
        rows'.any (fun r => (parse_sswi_row r karst).isFatal) := by
      cases hb : rows'.any (fun r => (parse_sswi_row r karst).isFatal) with
      | true =>
        obtain ⟨r, hr, hf⟩ := List.any_eq_true.mp hb
        exact List.any_eq_true.mpr ⟨r, hperm.mem_iff.mpr hr, hf⟩
      | false =>
        cases hb2 : rows.any (fun r => (parse_sswi_row r karst).isFatal) with
        | false => rfl
        | true =>
          obtain ⟨r, hr, hf⟩ := List.any_eq_true.mp hb2
          have h3 : rows'.any (fun r => (parse_sswi_row r karst).isFatal) = true :=
            List.any_eq_true.mpr ⟨r, hperm.mem_iff.mp hr, hf⟩
          rw [hb] at h3
          exact Bool.noConfusion h3
    unfold compute_risks
    rw [hany]
    by_cases hb : rows'.any (fun r => (parse_sswi_row r karst).isFatal) = true
    · simp [hb]
    · simp [hb]
  · intro res res' h1 h2
    obtain ⟨hmin1, hmax1, hg1⟩ := compute_risks_some_elim h1
    obtain ⟨hmin2, hmax2, hg2⟩ := compute_risks_some_elim h2
    refine ⟨?_, ?_, ?_⟩
    · rw [hmin1, hmin2, foldl_minStep_perm hsw]
    · rw [hmax1, hmax2, foldl_maxStep_perm hsw]
    · intro h s
      rw [hg1, hg2, getGroup_foldl, getGroup_foldl]
      simp only [getGroup, List.nil_append]
      rw [Multiset.coe_eq_coe]
      exact htr.filterMap _

/-- First example row for the C6 witness (horizon 1, winter, SSWI −1.0). -/
def permRowA : List String := ["a", "1.0", "2.0", "x", "1", "1", "-1.0", "y"]

/-- Second example row for the C6 witness (horizon 2, summer, SSWI −2.0). -/
def permRowB : List String := ["b", "3.0", "4.0", "x", "2", "3", "-2.0", "y"]

/-- Witness for C6 on a two-row input and its transposition. -/
theorem aggregation_perm_invariant_witness :
    ([permRowA, permRowB] : List (List String)).Perm [permRowB, permRowA] ∧
    ((compute_risks [permRowA, permRowB] [] = none ↔
        compute_risks [permRowB, permRowA] [] = none) ∧
      (∀ res res', compute_risks [permRowA, permRowB] [] = some res →
        compute_risks [permRowB, permRowA] [] = some res' →
        res.min_sswi = res'.min_sswi ∧ res.max_sswi = res'.max_sswi ∧
        ∀ h s, (getGroup res.geojson h s : Multiset Feature) =
          (getGroup res'.geojson h s : Multiset Feature))) :=
  ⟨List.Perm.swap permRowB permRowA [],
    aggregation_perm_invariant [permRowA, permRowB] [permRowB, permRowA] []
      (List.Perm.swap permRowB permRowA [])⟩

/-! ### JSON values, the feature dict, and the karst filter -/

/-- JSON values as produced by `json.load` and built by the source
(numbers are exact rationals, cf. the float modelling above). -/
inductive Json where
  | num : ℚ → Json
  | str : String → Json
  | bool : Bool → Json
  | arr : List Json → Json
  | obj : List (String × Json) → Json

/-- First-match association-list lookup (Python dicts have unique keys, so
this is exactly `d[k]`; `none` is a `KeyError`). -/
def lookupAssoc (fields : List (String × Json)) (k : String) : Option Json :=
  match fields with
  | [] => none
  | (k', v) :: rest => if k' = k then some v else lookupAssoc rest k

/-- `d[k]` on a JSON value (a `KeyError` / `TypeError` is `none`). -/
def Json.lookup (j : Json) (k : String) : Option Json :=
  match j with
  | .obj fields => lookupAssoc fields k
  | _ => none

/-- The keys of a JSON object, in insertion order. -/
def Json.keys (j : Json) : List String :=
  match j with
  | .obj fields => fields.map Prod.fst
  | _ => []

/-- `d[k] = v` on an association list: replaces the value at the first
occurrence of `k`, or appends the binding (Python dict assignment keeps the
key's position when it already exists). -/
def setAssoc (fields : List (String × Json)) (k : String) (v : Json) :
    List (String × Json) :=
  match fields with
  | [] => [(k, v)]
  | (k', v') :: rest =>
    if k' = k then (k', v) :: rest else (k', v') :: setAssoc rest k v

/-- `d[k] = v` on a JSON value (non-objects are left unchanged; the source
only ever assigns into the loaded top-level object). -/
def Json.setKey (j : Json) (k : String) (v : Json) : Json :=
  match j with
  | .obj fields => .obj (setAssoc fields k v)
  | _ => j

/-- The exact GeoJSON dict returned by `_parse_sswi_row` for a classified
feature: point geometry with `[lng, lat]` coordinates and the three
properties `riskLevel`, `sswi`, `inKarst`. -/
def Feature.toJson (f : Feature) : Json :=
  .obj [("type", .str "Feature"),
    ("geometry", .obj [("type", .str "Point"),
      ("coordinates", .arr [.num f.lng, .num f.lat])]),
    ("properties", .obj [("riskLevel", .num (f.riskLevel : ℚ)),
      ("sswi", .num f.sswi),
      ("inKarst", .bool f.inKarst)])]

/-- `feature["properties"]["TypeZK"] == type_` of `filter_karst_by_type`:
`none` models the `KeyError` on a missing key.  Python's `bool` is a
subclass of `int`, so a boolean `TypeZK` compares as its numeric value
(`True == 1` and `False == 0` are `True`); strings, lists and objects
compare unequal to an int. -/
def keepFeature (type_ : ℚ) (f : Json) : Option Bool :=
  match (Json.lookup f "properties").bind (fun p => Json.lookup p "TypeZK") with
  | some (.num v) => some (v == type_)
  | some (.bool b) => some ((if b then (1 : ℚ) else 0) == type_)
  | some _ => some false
  | none => none

/-- The filtering loop of `filter_karst_by_type`, aborting on the first
`KeyError`. -/
def filterFeatures (type_ : ℚ) : List Json → Option (List Json)
  | [] => some []
  | f :: rest =>
    match keepFeature type_ f, filterFeatures type_ rest with
    | some keep, some rest' => some (if keep then f :: rest' else rest')
    | _, _ => none

/-- `filter_karst_by_type(f, type_=1)` on the loaded JSON value: keeps the
features whose `TypeZK` property equals `type_` and stores them back under
the `"features"` key of the same object. -/
def filter_karst_by_type (data : Json) (type_ : ℚ := 1) : Option Json :=
  match Json.lookup data "features" with
  | some (.arr feats) =>
    match filterFeatures type_ feats with
    | some kept => some (Json.setKey data "features" (.arr kept))
    | none => none
  | _ => none

/-! ### Claim C8 -/

/-- C8: the GeoJSON dict of a successfully classified row carries geometry
coordinates `[longitude, latitude]` — swapped relative to the input order,
which is latitude (field 2) then longitude (field 3) — and its properties
object has exactly the keys `riskLevel`, `sswi`, `inKarst`, in that order. -/
theorem feature_geometry_and_properties
    (point slat slng f4 hor sea ssw f8 : String) (karst : List Polygon)
    (h s : String) (f : Feature) (la ln : ℚ)
    (hp : parse_sswi_row [point, slat, slng, f4, hor, sea, ssw, f8] karst =
      .ok h s f)
    (hla : parseFloat slat = some la) (hln : parseFloat slng = some ln) :
    f.lat = la ∧ f.lng = ln ∧
    (Json.lookup (Feature.toJson f) "geometry").bind
        (fun g => Json.lookup g "coordinates") =
      some (.arr [.num ln, .num la]) ∧
    (Json.lookup (Feature.toJson f) "properties").map Json.keys =
      some ["riskLevel", "sswi", "inKarst"] := by
  obtain ⟨p', lat', lng', f4', sea', ssw', f8', la', ln', q, hrow, hc, hla', hln',
    hq, hsea, hf⟩ := parse_ok_shape hp
  simp only [List.cons.injEq, and_true] at hrow
  obtain ⟨rfl, rfl, rfl, rfl, rfl, rfl, rfl, rfl⟩ := hrow
  obtain rfl : la' = la := Option.some.inj (hla'.symm.trans hla)
  obtain rfl : ln' = ln := Option.some.inj (hln'.symm.trans hln)
  subst hf
  exact ⟨rfl, rfl, rfl, rfl⟩

/-- Witness for C8 at the example row, exhibiting the coordinate swap. -/
theorem feature_geometry_and_properties_witness :
    parse_sswi_row ["p1", "46.0", "2.0", "x", "2", "3", "-2.0", "y"] [] =
      ParseResult.ok "2" "summer" (Feature.mk 2 46 2 (-2) false) ∧
    ((Feature.mk 2 46 2 (-2) false).lat = 46 ∧
      (Feature.mk 2 46 2 (-2) false).lng = 2 ∧
      (Json.lookup (Feature.toJson (Feature.mk 2 46 2 (-2) false)) "geometry").bind
          (fun g => Json.lookup g "coordinates") =
        some (.arr [.num 2, .num 46]) ∧
      (Json.lookup (Feature.toJson (Feature.mk 2 46 2 (-2) false)) "properties").map
          Json.keys =
        some ["riskLevel", "sswi", "inKarst"]) :=
  ⟨by decide,
    feature_geometry_and_properties "p1" "46.0" "2.0" "x" "2" "3" "-2.0" "y" []
      "2" "summer" (Feature.mk 2 46 2 (-2) false) 46 2 (by decide) (by decide)
      (by decide)⟩

/-! ### Claim C9 -/

lemma filterFeatures_eq {type_ : ℚ} :
    ∀ {l kept : List Json}, filterFeatures type_ l = some kept →
      kept = l.filter (fun f => decide (keepFeature type_ f = some true)) := by
  intro l
  induction l with
  | nil =>
    intro kept hk
    simp only [filterFeatures, Option.some.injEq] at hk
    rw [← hk, List.filter_nil]
  | cons f rest ih =>
    intro kept hk
    unfold filterFeatures at hk
    cases hkf : keepFeature type_ f with
    | none => rw [hkf] at hk; exact absurd hk (by simp)
    | some keep =>
      rw [hkf] at hk
      cases hr : filterFeatures type_ rest with
      | none => rw [hr] at hk; exact absurd hk (by simp)
      | some rest' =>
        rw [hr] at hk
        simp only [Option.some.injEq] at hk
        rw [← hk, List.filter_cons, ih hr]
        cases keep with
        | true => simp [hkf]
        | false => simp [hkf]

lemma lookupAssoc_setAssoc_self (fields : List (String × Json)) (k : String)
    (v : Json) : lookupAssoc (setAssoc fields k v) k = some v := by
  induction fields with
  | nil => simp [setAssoc, lookupAssoc]
  | cons hd rest ih =>
    obtain ⟨k', v'⟩ := hd
    by_cases hk : k' = k <;> simp [setAssoc, lookupAssoc, hk, ih]

lemma lookupAssoc_setAssoc_other (fields : List (String × Json)) (k : String)
    (v : Json) (k0 : String) (hne : k0 ≠ k) :
    lookupAssoc (setAssoc fields k v) k0 = lookupAssoc fields k0 := by
  induction fields with
  | nil =>
    have h0 : ¬ k = k0 := fun hh => hne hh.symm
    simp [setAssoc, lookupAssoc, h0]
  | cons hd rest ih =>
    obtain ⟨k', v'⟩ := hd
    by_cases hk : k' = k
    · subst hk
      have h2 : ¬ k' = k0 := fun hh => hne hh.symm
      simp [setAssoc, lookupAssoc, h2]
    · by_cases h2 : k' = k0 <;> simp [setAssoc, lookupAssoc, hk, h2, ih, hne]

lemma keys_setAssoc_of_mem (fields : List (String × Json)) (k : String)
    (v : Json) (hmem : lookupAssoc fields k ≠ none) :
    (setAssoc fields k v).map Prod.fst = fields.map Prod.fst := by
  induction fields with
  | nil => exact absurd rfl hmem
  | cons hd rest ih =>
    obtain ⟨k', v'⟩ := hd
    by_cases hk : k' = k
    · simp [setAssoc, lookupAssoc, hk]
    · have h2 : lookupAssoc rest k ≠ none := by
        simpa [lookupAssoc, hk] using hmem
      simp [setAssoc, lookupAssoc, hk, ih h2]

/-- C9: whenever `filter_karst_by_type` succeeds, it returns the input
object with its `"features"` list replaced by exactly the input features
whose `TypeZK` property equals `type_`, in their original relative order
(each kept feature is an element of the input list, unmodified), and every
other key of the object — including any geometry data stored there — is
unchanged. -/
theorem filter_karst_spec (data : Json) (type_ : ℚ) (out : Json)
    (hp : filter_karst_by_type data type_ = some out) :
    ∃ feats : List Json,
      Json.lookup data "features" = some (.arr feats) ∧
      out = Json.setKey data "features"
        (.arr (feats.filter (fun f => decide (keepFeature type_ f = some true)))) ∧
      Json.lookup out "features" =
        some (.arr (feats.filter (fun f => decide (keepFeature type_ f = some true)))) ∧
      (∀ k, k ≠ "features" → Json.lookup out k = Json.lookup data k) ∧
      Json.keys out = Json.keys data ∧
      ∀ g ∈ feats.filter (fun f => decide (keepFeature type_ f = some true)),
        g ∈ feats := by
  unfold filter_karst_by_type at hp
  split at hp
  · next feats hfe =>
    split at hp
    · next kept hkept =>
      obtain rfl := (Option.some.inj hp).symm
      obtain rfl := filterFeatures_eq hkept
      obtain ⟨fields, rfl⟩ : ∃ fields, data = .obj fields := by
        cases data <;> simp [Json.lookup] at hfe
        exact ⟨_, rfl⟩
      have hfe' : lookupAssoc fields "features" = some (.arr feats) := hfe
      refine ⟨feats, hfe, rfl, ?_, ?_, ?_, ?_⟩
      · simp [Json.setKey, Json.lookup, lookupAssoc_setAssoc_self]
      · intro k hk
        simp [Json.setKey, Json.lookup,
          lookupAssoc_setAssoc_other _ _ _ _ hk]
      · simp only [Json.setKey, Json.keys]
        exact keys_setAssoc_of_mem _ _ _ (by rw [hfe']; simp)
      · intro g hg
        exact List.mem_of_mem_filter hg
    · exact absurd hp (by simp)
  · exact absurd hp (by simp)

/-- A three-feature karst collection for the C9 witness: features of
`TypeZK` 1, 2 and `true` (a JSON boolean, which Python compares equal to 1
since `bool` subclasses `int`), plus an extra top-level key. -/
def karstData : Json :=
  .obj [("type", .str "FeatureCollection"),
    ("features", .arr
      [.obj [("properties", .obj [("TypeZK", .num 1)]), ("geometry", .str "gA")],
       .obj [("properties", .obj [("TypeZK", .num 2)]), ("geometry", .str "gB")],
       .obj [("properties", .obj [("TypeZK", .bool true)]), ("geometry", .str "gC")]]),
    ("name", .str "karst")]

/-- The result of filtering `karstData` with the default type 1: the
`TypeZK = 1` feature and the `TypeZK = true` feature are kept. -/
def karstFiltered : Json :=
  .obj [("type", .str "FeatureCollection"),
    ("features", .arr
      [.obj [("properties", .obj [("TypeZK", .num 1)]), ("geometry", .str "gA")],
       .obj [("properties", .obj [("TypeZK", .bool true)]), ("geometry", .str "gC")]]),
    ("name", .str "karst")]

/-- Witness for C9: filtering the three-feature collection keeps exactly
the `TypeZK = 1` and `TypeZK = true` features, in order, and leaves the
other keys alone. -/
theorem filter_karst_spec_witness :
    filter_karst_by_type karstData 1 = some karstFiltered ∧
    (∃ feats : List Json,
      Json.lookup karstData "features" = some (.arr feats) ∧
      karstFiltered = Json.setKey karstData "features"
        (.arr (feats.filter (fun f => decide (keepFeature 1 f = some true)))) ∧
      Json.lookup karstFiltered "features" =
        some (.arr (feats.filter (fun f => decide (keepFeature 1 f = some true)))) ∧
      (∀ k, k ≠ "features" →
        Json.lookup karstFiltered k = Json.lookup karstData k) ∧
      Json.keys karstFiltered = Json.keys karstData ∧
      ∀ g ∈ feats.filter (fun f => decide (keepFeature 1 f = some true)),
        g ∈ feats) :=
  ⟨rfl, filter_karst_spec karstData 1 karstFiltered rfl⟩
